import Mathlib

/-!
A shallow embedding of the `passport-ldap` strategy (file
`lib/passport-ldap/strategy.js`, current revision: the variant that reads
`usernameField`/`passwordField` and creates the client per attempt) and
proofs about its authentication behaviour.

Modelling conventions:
* JavaScript `undefined` flowing through a string position is modelled as
  `Option String`; the coercion performed by `String.prototype.replace`
  (which renders `undefined` as the text "undefined") is `jsStr`.
* The ldapjs client is an external collaborator; an attempt's interaction
  with it is recorded as a trace of `ClientAction`s, and its responses (bind
  error, search-issue error, search event stream) are an oracle
  `DirBehavior` fixed per attempt.
* Outcome reports (`success` / `fail` / `error`) are collected in arrival
  order into a list, so statements about "at most one outcome" are
  statements about the length of that list.
* The one place the JavaScript could throw inside `authenticate` after the
  body guard (`nameSplit[0].toLowerCase()` on a missing element) is
  modelled with `Except`: a `.error` result is an uncaught exception.
-/

/-- JS `s.split('\\')` restricted to a single-character separator, on the
character list: always returns a non-empty list, `""` splits to `[""]`. -/
def splitChar (sep : Char) : List Char → List (List Char)
  | [] => [[]]
  | c :: rest =>
    let r := splitChar sep rest
    if c = sep then [] :: r
    else
      match r with
      | [] => [[c]]
      | h :: t => (c :: h) :: t

/-- JS `username.split('\\')`. -/
def jsSplitBackslash (s : String) : List String :=
  (splitChar '\\' s.data).map (fun l => String.mk l)

/-- Whether `pat` is a leading segment of `s` (character lists). -/
def leadMatch : List Char → List Char → Bool
  | [], _ => true
  | _ :: _, [] => false
  | p :: ps, c :: cs => p = c && leadMatch ps cs

/-- Replace the first occurrence of `pat` in `s` by `rep` (character lists):
JS `String.prototype.replace` with a non-global literal regexp. -/
def replFirstAux (pat rep : List Char) : List Char → List Char
  | [] => []
  | c :: cs =>
    if leadMatch pat (c :: cs) then rep ++ (c :: cs).drop pat.length
    else c :: replFirstAux pat rep cs

/-- JS `s.replace(pat-as-literal-regexp, rep)`: first occurrence only. -/
def replaceFirst (s pat rep : String) : String :=
  String.mk (replFirstAux pat.data rep.data s.data)

/-- JS `s.toLowerCase()` (ASCII-adequate model). -/
def toLowerStr (s : String) : String :=
  String.mk (s.data.map Char.toLower)

/-- Coercion JS applies to a possibly-`undefined` value used as the
replacement string of `replace`. -/
def jsStr : Option String → String
  | none => "undefined"
  | some s => s

/-- First-match lookup of a field in a request body object. -/
def lookupField : List (String × String) → String → Option String
  | [], _ => none
  | (k, v) :: rest, f => if k = f then some v else lookupField rest f

/-- JS truthiness of `req.body[f]` for string-valued fields: an absent
field and the empty string are both falsy. Returns the value when truthy. -/
def truthyField (body : List (String × String)) (f : String) : Option String :=
  match lookupField body f with
  | none => none
  | some v => if v = "" then none else some v

/-- Occurrences of a string in a list of DN components. -/
def countOcc (x : String) : List String → Nat
  | [] => 0
  | y :: ys => (if y = x then 1 else 0) + countOcc x ys

/-- The `base` option: either a single DN string or an array of DN
components. -/
inductive BaseDN where
  | str (s : String)
  | comps (cs : List String)
  deriving DecidableEq

/-- The `search` option. Only `filter` is ever read or rewritten by the
strategy; the remaining search properties (scope, attributes, sizeLimit)
are passed through to the client unread and are not modelled. -/
structure SearchSpec where
  filter : String
  deriving DecidableEq

/-- The strategy options object. `serverUrl` stands for the opaque
`server` connection spec. -/
structure LdapOptions where
  serverUrl : String
  usernameField : String
  passwordField : String
  base : BaseDN
  search : SearchSpec
  authOnly : Bool
  authMode : Nat
  uidTag : String
  debug : Bool
  deriving DecidableEq

/-- An incoming request: `body` is `none` when `req.body` is undefined. -/
structure Request where
  body : Option (List (String × String))
  deriving DecidableEq

/-- One event of the asynchronous search response stream. -/
inductive SearchEvent where
  | entry (profile : String)
  | errorEv (e : String)
  | endEv (status : Nat)
  deriving DecidableEq

/-- The directory's behaviour for one attempt: result of the bind, result
of issuing the search, and the search event stream delivered in order. -/
structure DirBehavior where
  bindErr : Option String
  searchErr : Option String
  events : List SearchEvent
  deriving DecidableEq

/-- Result of the application-supplied verify callback on a profile. -/
inductive VerifyResult where
  | err (e : String)
  | noUser
  | user (u : String)
  deriving DecidableEq

/-- The verify callback. A profile is modelled as an opaque string. -/
def VerifyFn : Type := String → VerifyResult

/-- The value carried by a `success` report: `uidObj dn` is the synthetic
`{uid: username}` object of the authOnly path, `userVal u` the user value
produced by the verify callback. -/
inductive SuccessVal where
  | uidObj (dn : String)
  | userVal (u : String)
  deriving DecidableEq

/-- One outcome report to the host framework. -/
inductive Outcome where
  | success (v : SuccessVal)
  | failCode (code : Nat)
  | failChallenge
  | error (e : String)
  deriving DecidableEq

/-- One interaction with the ldapjs client. -/
inductive ClientAction where
  | createClient (server : String)
  | bind (dn : String) (pw : String)
  | search (dnBase : String) (filter : String)
  deriving DecidableEq

/-- Everything observable about one `authenticate` call: the client
interactions, the outcome reports in order, and the state of the shared
options object after the call. -/
structure AuthResult where
  actions : List ClientAction
  outcomes : List Outcome
  optionsAfter : LdapOptions
  deriving DecidableEq

/-- `base` joined: `if (typeof base !== 'string') base = base.join(',')`. -/
def joinBase : BaseDN → String
  | .str s => s
  | .comps cs => String.intercalate "," cs

/-- The component list of the Windows-mode search base:
`dn = base.slice(); if (base.indexOf(dc) === -1) dn.splice(0, 0, dc)`. -/
def winDnComps (cs : List String) (dc : String) : List String :=
  if cs.contains dc then cs else dc :: cs

/-- Lines 118–135 of `authenticate`: compute the search base DN and the
local `name`. `username` here is the (possibly rewritten) bind DN. The
`.error` branch is the only statement that could throw: JS
`nameSplit[0].toLowerCase()` when `nameSplit[0]` is undefined. -/
def resolveSearch (o : LdapOptions) (username : String) :
    Except String (String × Option String) :=
  if o.authMode ≠ 1 then
    match o.base with
    | .comps cs =>
      let nameSplit := jsSplitBackslash username
      match nameSplit.get? 0 with
      | none => .error "TypeError: cannot read toLowerCase of undefined"
      | some domain =>
        let name := nameSplit.get? 1
        let dc := "dc=" ++ toLowerStr domain
        .ok (String.intercalate "," (winDnComps cs dc), name)
    | .str s => .ok (s, none)
  else .ok (username, none)

/-- The outcome reported by the `searchEntry` handler for one entry, via
the verify callback. -/
def processEntry (verify : VerifyFn) (profile : String) : Outcome :=
  match verify profile with
  | .err e => .error e
  | .noUser => .failChallenge
  | .user u => .success (.userVal u)

/-- Outcome reports caused by one search event. The `end` handler only
reports when the status is non-zero. -/
def processEvent (verify : VerifyFn) : SearchEvent → List Outcome
  | .entry p => [processEntry verify p]
  | .errorEv e => [.error e]
  | .endEv st => if st ≠ 0 then [.failCode st] else []

/-- Outcome reports of the whole event stream, in arrival order. No
handler is ever detached, so every event is processed. -/
def processEvents (verify : VerifyFn) (evs : List SearchEvent) : List Outcome :=
  (evs.map (processEvent verify)).flatten

/-- A search event that causes the registered handlers to report an
outcome: every entry event, every error event, and an end event with
non-zero status. -/
def decisiveEvent : SearchEvent → Bool
  | .endEv st => st != 0
  | _ => true

/-- Continuation of `authenticate` inside the bind callback: `username`
is the bind DN. Returns the client actions issued after the bind and the
outcome reports. -/
def postBind (o : LdapOptions) (username : String) (dir : DirBehavior)
    (verify : VerifyFn) : Except String (List ClientAction × List Outcome) :=
  match dir.bindErr with
  | some _ => .ok ([], [.failCode 403])
  | none =>
    if o.authOnly then .ok ([], [.success (.uidObj username)])
    else
      match resolveSearch o username with
      | .error e => .error e
      | .ok (dn, name) =>
        let filter := replaceFirst o.search.filter "$uid$" (jsStr name)
        match dir.searchErr with
        | some _ => .ok ([.search dn filter], [.failCode 403])
        | none => .ok ([.search dn filter], processEvents verify dir.events)

/-- Lines 97–105: the DN the bind is issued with. In Unix mode
(`authMode === 1`) the request username is rewritten to
`uidTag=user,base`; otherwise it is passed through unchanged. -/
def bindName (o : LdapOptions) (user : String) : String :=
  if o.authMode = 1 then o.uidTag ++ "=" ++ user ++ "," ++ joinBase o.base
  else user

/-- `Strategy.prototype.authenticate`. The client is created before the
credential guard; the search spec is copied with `Object.create` before
its filter is rewritten, so `optionsAfter` is the unchanged input
options. -/
def authenticate (o : LdapOptions) (req : Request) (dir : DirBehavior)
    (verify : VerifyFn) : Except String AuthResult :=
  let created := [ClientAction.createClient o.serverUrl]
  match req.body with
  | none => .ok ⟨created, [.failCode 401], o⟩
  | some body =>
    match truthyField body o.usernameField, truthyField body o.passwordField with
    | some user, some pw =>
      let username := bindName o user
      match postBind o username dir verify with
      | .error e => .error e
      | .ok (acts, outs) =>
        .ok ⟨created ++ [ClientAction.bind username pw] ++ acts, outs, o⟩
    | _, _ => .ok ⟨created, [.failCode 401], o⟩

/-- The strategy constructor's default options, used when the only
argument is the verify function. -/
def defaultOptions : LdapOptions :=
  { serverUrl := ""
    usernameField := "user"
    passwordField := "pwd"
    base := .str ""
    search := { filter := "" }
    authOnly := false
    authMode := 1
    uidTag := "uid"
    debug := false }

/-- A JS argument position of the constructor: an options object, a
function, or undefined. -/
inductive JsArg where
  | obj (o : LdapOptions)
  | func (v : VerifyFn)
  | undef

/-- The `Strategy` constructor: when the first argument is a function it
becomes the verify callback and the defaults are used; a missing verify
throws. On success returns the stored options argument and callback. -/
def strategyMake (a1 : JsArg) (a2 : Option VerifyFn) :
    Except String (JsArg × VerifyFn) :=
  let p : JsArg × Option VerifyFn :=
    match a1 with
    | .func f => (.obj defaultOptions, some f)
    | _ => (a1, a2)
  match p.2 with
  | none => .error "LDAP authentication strategy requires a verify function"
  | some v => .ok (p.1, v)

/-- A Unix-mode (`authMode 1`) options fixture. -/
def unixOpts : LdapOptions :=
  { serverUrl := "srv"
    usernameField := "user"
    passwordField := "pwd"
    base := .comps ["dc=example", "dc=local"]
    search := { filter := "(uid=$uid$)" }
    authOnly := false
    authMode := 1
    uidTag := "uid"
    debug := false }

/-- A Windows-mode (`authMode 0`) options fixture. -/
def winOpts : LdapOptions :=
  { unixOpts with
    authMode := 0
    base := .comps ["dc=ad", "dc=sm"]
    search := { filter := "(sAMAccountName=$uid$)" } }

/-- A verify callback fixture accepting every profile as user "u1". -/
def acceptVerify : VerifyFn := fun _ => .user "u1"

/-- A directory fixture whose bind and search both succeed, delivering
the given event stream. -/
def okDir (evs : List SearchEvent) : DirBehavior := ⟨none, none, evs⟩

/-! ## Helper lemmas -/

theorem splitChar_ne_nil (sep : Char) (cs : List Char) : splitChar sep cs ≠ [] := by
  induction cs with
  | nil => simp [splitChar]
  | cons c rest ih =>
    simp only [splitChar]
    by_cases h : c = sep
    · simp [h]
    · simp only [h, if_false]
      cases hr : splitChar sep rest with
      | nil => simp
      | cons a t => simp

theorem splitChar_no_sep (sep : Char) (cs : List Char) (h : sep ∉ cs) :
    splitChar sep cs = [cs] := by
  induction cs with
  | nil => rfl
  | cons c rest ih =>
    have hc : ¬ c = sep := fun he => h (he ▸ List.mem_cons_self c rest)
    have hrest : sep ∉ rest := fun hm => h (List.mem_cons_of_mem _ hm)
    simp [splitChar, hc, ih hrest]

theorem splitChar_append (sep : Char) (d n : List Char) (hd : sep ∉ d) :
    splitChar sep (d ++ sep :: n) = d :: splitChar sep n := by
  induction d with
  | nil => simp [splitChar]
  | cons c rest ih =>
    have hc : ¬ c = sep := fun he => hd (he ▸ List.mem_cons_self c rest)
    have hrest : sep ∉ rest := fun hm => hd (List.mem_cons_of_mem _ hm)
    simp [splitChar, hc, ih hrest]

theorem jsSplitBackslash_no_sep (s : String) (h : '\\' ∉ s.data) :
    jsSplitBackslash s = [s] := by
  simp only [jsSplitBackslash, splitChar_no_sep _ _ h, List.map_cons, List.map_nil]

theorem jsSplitBackslash_domain (d n : String) (hd : '\\' ∉ d.data)
    (hn : '\\' ∉ n.data) : jsSplitBackslash (d ++ "\\" ++ n) = [d, n] := by
  have hdata : (d ++ "\\" ++ n).data = d.data ++ '\\' :: n.data := by
    simp [String.data_append]
  simp only [jsSplitBackslash, hdata, splitChar_append _ _ _ hd,
    splitChar_no_sep _ _ hn, List.map_cons, List.map_nil]

theorem processEvents_length (v : VerifyFn) (evs : List SearchEvent) :
    (processEvents v evs).length = evs.countP decisiveEvent := by
  induction evs with
  | nil => rfl
  | cons e rest ih =>
    simp only [processEvents, List.map_cons, List.flatten_cons, List.length_append,
      List.countP_cons] at *
    rw [ih]
    cases e with
    | entry p => simp [processEvent, decisiveEvent, Nat.add_comm]
    | errorEv er => simp [processEvent, decisiveEvent, Nat.add_comm]
    | endEv st =>
      by_cases h : st = 0
      · simp [processEvent, decisiveEvent, h]
      · simp [processEvent, decisiveEvent, h, Nat.add_comm]

theorem countOcc_ne_zero_iff (x : String) (l : List String) :
    countOcc x l ≠ 0 ↔ x ∈ l := by
  induction l with
  | nil => simp [countOcc]
  | cons y ys ih =>
    by_cases h : y = x
    · simp [countOcc, h]
    · simp only [countOcc, h, if_false, Nat.zero_add, ih, List.mem_cons]
      constructor
      · exact fun hm => Or.inr hm
      · rintro (he | hm)
        · exact absurd he.symm h
        · exact hm

theorem countOcc_winDnComps (cs : List String) (dc : String) :
    countOcc dc (winDnComps cs dc) =
      if countOcc dc cs = 0 then 1 else countOcc dc cs := by
  unfold winDnComps
  by_cases h : dc ∈ cs
  · have hn : countOcc dc cs ≠ 0 := (countOcc_ne_zero_iff dc cs).mpr h
    simp [List.elem_iff.mpr h, h, hn]
  · have h0 : countOcc dc cs = 0 := by
      by_contra hnz
      exact h ((countOcc_ne_zero_iff dc cs).mp hnz)
    have hc : cs.contains dc = false := by
      cases hcv : cs.contains dc with
      | false => rfl
      | true => exact absurd (List.elem_iff.mp hcv) h
    simp [hc, h, h0, countOcc]

theorem resolveSearch_unix (o : LdapOptions) (u : String) (h : o.authMode = 1) :
    resolveSearch o u = .ok (u, none) := by
  simp [resolveSearch, h]

theorem resolveSearch_str (o : LdapOptions) (u s : String)
    (hm : o.authMode ≠ 1) (hb : o.base = .str s) :
    resolveSearch o u = .ok (s, none) := by
  simp [resolveSearch, hm, hb]

theorem resolveSearch_win (o : LdapOptions) (d n : String) (cs : List String)
    (hm : o.authMode ≠ 1) (hb : o.base = .comps cs)
    (hd : '\\' ∉ d.data) (hn : '\\' ∉ n.data) :
    resolveSearch o (d ++ "\\" ++ n) =
      .ok (String.intercalate "," (winDnComps cs ("dc=" ++ toLowerStr d)), some n) := by
  simp [resolveSearch, hm, hb, jsSplitBackslash_domain d n hd hn]

theorem resolveSearch_nosep (o : LdapOptions) (u : String) (cs : List String)
    (hm : o.authMode ≠ 1) (hb : o.base = .comps cs) (hsep : '\\' ∉ u.data) :
    resolveSearch o u =
      .ok (String.intercalate "," (winDnComps cs ("dc=" ++ toLowerStr u)), none) := by
  simp [resolveSearch, hm, hb, jsSplitBackslash_no_sep u hsep]

theorem resolveSearch_ok (o : LdapOptions) (u : String) :
    ∃ r, resolveSearch o u = .ok r := by
  unfold resolveSearch
  by_cases hm : o.authMode ≠ 1
  · cases hb : o.base with
    | comps cs =>
      simp only [hm, if_true, hb]
      cases hs : (jsSplitBackslash u).get? 0 with
      | none =>
        exfalso
        have hne : jsSplitBackslash u ≠ [] := by
          simp [jsSplitBackslash, splitChar_ne_nil]
        cases hc : jsSplitBackslash u with
        | nil => exact hne hc
        | cons a t => rw [hc] at hs; simp at hs
      | some domain =>
        exact ⟨(String.intercalate "," (winDnComps cs ("dc=" ++ toLowerStr domain)),
          (jsSplitBackslash u).get? 1), by simp [hm, hs]⟩
    | str s => simp [hm, hb]
  · simp [hm]

theorem postBind_search (o : LdapOptions) (u : String) (dir : DirBehavior)
    (v : VerifyFn) (dn : String) (name : Option String)
    (hb : dir.bindErr = none) (hao : o.authOnly = false)
    (hr : resolveSearch o u = .ok (dn, name)) :
    postBind o u dir v =
      .ok ([.search dn (replaceFirst o.search.filter "$uid$" (jsStr name))],
        match dir.searchErr with
        | some _ => [.failCode 403]
        | none => processEvents v dir.events) := by
  unfold postBind
  rw [hb, hao, hr]
  cases dir.searchErr <;> simp

theorem authenticate_creds (o : LdapOptions) (body : List (String × String))
    (user pw : String) (dir : DirBehavior) (v : VerifyFn)
    (hu : truthyField body o.usernameField = some user)
    (hp : truthyField body o.passwordField = some pw) :
    authenticate o ⟨some body⟩ dir v =
      match postBind o (bindName o user) dir v with
      | .error e => .error e
      | .ok (acts, outs) =>
        .ok ⟨ClientAction.createClient o.serverUrl ::
              ClientAction.bind (bindName o user) pw :: acts, outs, o⟩ := by
  simp only [authenticate, hu, hp]
  cases hpb : postBind o (bindName o user) dir v with
  | error e => simp [hpb]
  | ok p => cases p with | mk acts outs => simp [hpb]

theorem postBind_ok (o : LdapOptions) (u : String) (dir : DirBehavior)
    (v : VerifyFn) : ∃ p, postBind o u dir v = .ok p := by
  unfold postBind
  cases hb : dir.bindErr with
  | some e => exact ⟨_, rfl⟩
  | none =>
    cases hao : o.authOnly with
    | true => exact ⟨([], [.success (.uidObj u)]), by simp⟩
    | false =>
      obtain ⟨⟨dn, name⟩, hr⟩ := resolveSearch_ok o u
      rw [hr]
      cases hs : dir.searchErr with
      | some e =>
        exact ⟨([.search dn (replaceFirst o.search.filter "$uid$" (jsStr name))],
          [.failCode 403]), by simp⟩
      | none =>
        exact ⟨([.search dn (replaceFirst o.search.filter "$uid$" (jsStr name))],
          processEvents v dir.events), by simp⟩

theorem authenticate_optionsAfter (o : LdapOptions) (req : Request)
    (dir : DirBehavior) (v : VerifyFn) (r : AuthResult)
    (h : authenticate o req dir v = .ok r) : r.optionsAfter = o := by
  obtain ⟨b⟩ := req
  cases b with
  | none =>
    simp only [authenticate] at h
    cases h
    rfl
  | some body =>
    simp only [authenticate] at h
    cases hu : truthyField body o.usernameField with
    | none =>
      cases hp : truthyField body o.passwordField <;>
        · rw [hu, hp] at h
          cases h
          rfl
    | some user =>
      cases hp : truthyField body o.passwordField with
      | none =>
        rw [hu, hp] at h
        cases h
        rfl
      | some pw =>
        rw [hu, hp] at h
        obtain ⟨⟨acts, outs⟩, hpb⟩ := postBind_ok o (bindName o user) dir v
        simp only [hpb] at h
        cases h
        rfl

/-! ## Claims -/

/-- C10: For every request whose body is entirely absent (undefined),
`authenticate` reports fail(401) as the sole outcome and does not throw:
the missing-credentials guard covers a missing body, not only missing
fields within it. -/
theorem c10_missing_body_fail401 (o : LdapOptions) (dir : DirBehavior)
    (v : VerifyFn) :
    authenticate o ⟨none⟩ dir v =
      .ok ⟨[ClientAction.createClient o.serverUrl], [Outcome.failCode 401], o⟩ :=
  rfl

/-- C9: Constructing a strategy without a verify function (an options
object and no second argument, or no arguments at all) throws; when the
single argument is a function it becomes the verify callback and the
default options of the constructor are used. -/
theorem c9_constructor_requires_verify :
    (∀ o : LdapOptions, strategyMake (.obj o) none =
        .error "LDAP authentication strategy requires a verify function") ∧
    (strategyMake .undef none =
        .error "LDAP authentication strategy requires a verify function") ∧
    (∀ f : VerifyFn, strategyMake (.func f) none = .ok (.obj defaultOptions, f)) :=
  ⟨fun _ => rfl, rfl, fun _ => rfl⟩

/-- C6: In Unix mode (`authMode 1`), for every username the DN passed to
the client's bind is `uidTag=username,base`, the base joined with commas
when given as components. -/
theorem c6_unix_bind_dn (o : LdapOptions) (body : List (String × String))
    (user pw : String) (dir : DirBehavior) (v : VerifyFn)
    (hmode : o.authMode = 1)
    (hu : truthyField body o.usernameField = some user)
    (hp : truthyField body o.passwordField = some pw) :
    ∃ acts outs,
      authenticate o ⟨some body⟩ dir v =
        .ok ⟨ClientAction.createClient o.serverUrl ::
              ClientAction.bind (o.uidTag ++ "=" ++ user ++ "," ++ joinBase o.base) pw ::
              acts, outs, o⟩ := by
  have hbn : bindName o user = o.uidTag ++ "=" ++ user ++ "," ++ joinBase o.base := by
    simp [bindName, hmode]
  obtain ⟨⟨acts, outs⟩, hpb⟩ := postBind_ok o (bindName o user) dir v
  refine ⟨acts, outs, ?_⟩
  rw [authenticate_creds o body user pw dir v hu hp]
  rw [hbn] at hpb ⊢
  simp only [hpb]

/-- Witness for `c6_unix_bind_dn` at a concrete Unix-mode attempt. -/
theorem c6_unix_bind_dn_witness :
    unixOpts.authMode = 1 ∧
    truthyField [("user", "alice"), ("pwd", "secret")] unixOpts.usernameField =
      some "alice" ∧
    truthyField [("user", "alice"), ("pwd", "secret")] unixOpts.passwordField =
      some "secret" ∧
    (∃ acts outs,
      authenticate unixOpts ⟨some [("user", "alice"), ("pwd", "secret")]⟩
          (okDir []) acceptVerify =
        .ok ⟨ClientAction.createClient unixOpts.serverUrl ::
              ClientAction.bind
                (unixOpts.uidTag ++ "=" ++ "alice" ++ "," ++ joinBase unixOpts.base)
                "secret" :: acts, outs, unixOpts⟩) :=
  ⟨rfl, rfl, rfl,
    c6_unix_bind_dn unixOpts [("user", "alice"), ("pwd", "secret")] "alice"
      "secret" (okDir []) acceptVerify rfl rfl rfl⟩

/-- C8: No attempt mutates the shared configuration or the search-spec
template: the options object after any call equals the input (so the
filter template keeps its `$uid$` placeholder), and every Windows-mode
attempt substitutes its own local username into the original template, so
a second attempt with a different username substitutes correctly. -/
theorem c8_no_config_mutation :
    (∀ (o : LdapOptions) (req : Request) (dir : DirBehavior) (v : VerifyFn)
        (r : AuthResult),
        authenticate o req dir v = .ok r → r.optionsAfter = o) ∧
    (∀ (o : LdapOptions) (body : List (String × String)) (d n pw : String)
        (cs : List String) (dir : DirBehavior) (v : VerifyFn),
        o.authMode ≠ 1 → o.base = .comps cs →
        '\\' ∉ d.data → '\\' ∉ n.data →
        truthyField body o.usernameField = some (d ++ "\\" ++ n) →
        truthyField body o.passwordField = some pw →
        dir.bindErr = none → o.authOnly = false →
        ∃ r, authenticate o ⟨some body⟩ dir v = .ok r ∧
          r.optionsAfter = o ∧
          ClientAction.search
              (String.intercalate "," (winDnComps cs ("dc=" ++ toLowerStr d)))
              (replaceFirst o.search.filter "$uid$" n) ∈ r.actions) := by
  constructor
  · exact fun o req dir v r h => authenticate_optionsAfter o req dir v r h
  · intro o body d n pw cs dir v hm hb hd hn hu hp hbind hao
    have hbn : bindName o (d ++ "\\" ++ n) = d ++ "\\" ++ n := by
      simp [bindName, hm]
    have hr := resolveSearch_win o d n cs hm hb hd hn
    rw [← hbn] at hr
    have hps := postBind_search o (bindName o (d ++ "\\" ++ n)) dir v _ _ hbind hao hr
    rw [authenticate_creds o body (d ++ "\\" ++ n) pw dir v hu hp]
    simp only [hps]
    cases hs : dir.searchErr with
    | some e => exact ⟨_, rfl, rfl, by simp [jsStr]⟩
    | none => exact ⟨_, rfl, rfl, by simp [jsStr]⟩

/-- Witness for `c8_no_config_mutation`: both parts applied at a concrete
Windows-mode attempt. -/
theorem c8_no_config_mutation_witness :
    (AuthResult.mk
        [ClientAction.createClient "srv", ClientAction.bind "AD\\bob" "s",
          ClientAction.search "dc=ad,dc=sm" "(sAMAccountName=bob)"]
        [] winOpts).optionsAfter = winOpts ∧
    (∃ r, authenticate winOpts ⟨some [("user", "AD\\bob"), ("pwd", "s")]⟩
          (okDir []) acceptVerify = .ok r ∧
        r.optionsAfter = winOpts ∧
        ClientAction.search
            (String.intercalate ","
              (winDnComps ["dc=ad", "dc=sm"] ("dc=" ++ toLowerStr "AD")))
            (replaceFirst winOpts.search.filter "$uid$" "bob") ∈ r.actions) :=
  ⟨c8_no_config_mutation.1 winOpts ⟨some [("user", "AD\\bob"), ("pwd", "s")]⟩
      (okDir []) acceptVerify
      (AuthResult.mk
        [ClientAction.createClient "srv", ClientAction.bind "AD\\bob" "s",
          ClientAction.search "dc=ad,dc=sm" "(sAMAccountName=bob)"]
        [] winOpts) rfl,
    c8_no_config_mutation.2 winOpts [("user", "AD\\bob"), ("pwd", "s")] "AD" "bob"
      "s" ["dc=ad", "dc=sm"] (okDir []) acceptVerify (by decide) rfl (by decide)
      (by decide) rfl rfl rfl rfl⟩

/-- C1 counterexample: a Unix-mode attempt whose search delivers two
matching-entry events reports two success outcomes — more than one
outcome for a single authentication attempt, so the late entry event is
double-reported rather than ignored. -/
theorem c1_two_entries_two_reports :
    authenticate unixOpts ⟨some [("user", "alice"), ("pwd", "secret")]⟩
        (okDir [.entry "p", .entry "p"]) acceptVerify =
      .ok ⟨[ClientAction.createClient "srv",
            ClientAction.bind "uid=alice,dc=example,dc=local" "secret",
            ClientAction.search "uid=alice,dc=example,dc=local" "(uid=undefined)"],
           [Outcome.success (.userVal "u1"), Outcome.success (.userVal "u1")],
           unixOpts⟩ :=
  rfl

/-- C1 (amended): no outcome suppression exists: every search event of an
attempt that reaches the search phase is processed, and exactly one
outcome is reported per decisive event (each entry, each error event,
each end event with non-zero status), so an attempt can report several
outcomes. -/
theorem c1_outcome_per_decisive_event (o : LdapOptions)
    (body : List (String × String)) (user pw : String) (dir : DirBehavior)
    (v : VerifyFn)
    (hmode : o.authMode = 1)
    (hu : truthyField body o.usernameField = some user)
    (hp : truthyField body o.passwordField = some pw)
    (hbind : dir.bindErr = none) (hao : o.authOnly = false)
    (hse : dir.searchErr = none) :
    ∃ r, authenticate o ⟨some body⟩ dir v = .ok r ∧
      r.outcomes = processEvents v dir.events ∧
      r.outcomes.length = dir.events.countP decisiveEvent := by
  have hr := resolveSearch_unix o (bindName o user) hmode
  have hps := postBind_search o (bindName o user) dir v _ _ hbind hao hr
  rw [hse] at hps
  rw [authenticate_creds o body user pw dir v hu hp]
  simp only [hps]
  exact ⟨_, rfl, rfl, processEvents_length v dir.events⟩

/-- Witness for `c1_outcome_per_decisive_event` at a concrete attempt
with two entries and a status-0 end event (three events, two outcomes). -/
theorem c1_outcome_per_decisive_event_witness :
    unixOpts.authMode = 1 ∧
    (∃ r, authenticate unixOpts ⟨some [("user", "alice"), ("pwd", "secret")]⟩
          (okDir [.entry "p", .entry "p", .endEv 0]) acceptVerify = .ok r ∧
        r.outcomes = processEvents acceptVerify [.entry "p", .entry "p", .endEv 0] ∧
        r.outcomes.length =
          List.countP decisiveEvent [.entry "p", .entry "p", .endEv 0]) :=
  ⟨rfl,
    c1_outcome_per_decisive_event unixOpts [("user", "alice"), ("pwd", "secret")]
      "alice" "secret" (okDir [.entry "p", .entry "p", .endEv 0]) acceptVerify
      rfl rfl rfl rfl rfl rfl⟩

/-- C2 counterexample: on a request missing the password field the sole
outcome is fail(401) and no bind or search is issued, but the interaction
trace is not empty: a directory client is created before the credential
check, contradicting "no directory-client connection creation". -/
theorem c2_client_created_on_missing_password :
    authenticate unixOpts ⟨some [("user", "alice")]⟩ (okDir []) acceptVerify =
      .ok ⟨[ClientAction.createClient "srv"], [Outcome.failCode 401], unixOpts⟩ :=
  rfl

/-- C2 (amended): when either credential field is missing (or falsy), the
sole outcome is fail(401) and the trace contains no bind and no search —
but it does contain the client creation performed before the guard. -/
theorem c2_missing_creds_fail401_no_bind (o : LdapOptions)
    (body : List (String × String)) (dir : DirBehavior) (v : VerifyFn)
    (h : truthyField body o.usernameField = none ∨
         truthyField body o.passwordField = none) :
    authenticate o ⟨some body⟩ dir v =
      .ok ⟨[ClientAction.createClient o.serverUrl], [Outcome.failCode 401], o⟩ := by
  rcases h with h | h
  · cases hp : truthyField body o.passwordField <;>
      simp [authenticate, h, hp]
  · cases hu : truthyField body o.usernameField <;>
      simp [authenticate, h, hu]

/-- Witness for `c2_missing_creds_fail401_no_bind` at a concrete request
missing the password field. -/
theorem c2_missing_creds_fail401_no_bind_witness :
    (truthyField [("user", "alice")] unixOpts.usernameField = none ∨
      truthyField [("user", "alice")] unixOpts.passwordField = none) ∧
    authenticate unixOpts ⟨some [("user", "alice")]⟩ (okDir []) acceptVerify =
      .ok ⟨[ClientAction.createClient unixOpts.serverUrl], [Outcome.failCode 401],
           unixOpts⟩ :=
  ⟨Or.inr rfl,
    c2_missing_creds_fail401_no_bind unixOpts [("user", "alice")] (okDir [])
      acceptVerify (Or.inr rfl)⟩

/-- C4 counterexample: with a successful bind, `authOnly` false, zero
entries and a terminal end event with status 0, the attempt reports no
outcome at all — not a fail — because the end handler only reports on a
non-zero status. -/
theorem c4_status_zero_reports_nothing :
    authenticate unixOpts ⟨some [("user", "alice"), ("pwd", "secret")]⟩
        (okDir [.endEv 0]) acceptVerify =
      .ok ⟨[ClientAction.createClient "srv",
            ClientAction.bind "uid=alice,dc=example,dc=local" "secret",
            ClientAction.search "uid=alice,dc=example,dc=local" "(uid=undefined)"],
           [], unixOpts⟩ :=
  rfl

/-- C4 (amended): with a successful bind, `authOnly` false, zero entries
and a terminal end event with NON-zero status, the sole reported outcome
is fail carrying that status; with status 0 nothing is reported. -/
theorem c4_nonzero_end_fails_with_status (o : LdapOptions)
    (body : List (String × String)) (user pw : String) (dir : DirBehavior)
    (v : VerifyFn) (st : Nat)
    (hmode : o.authMode = 1)
    (hu : truthyField body o.usernameField = some user)
    (hp : truthyField body o.passwordField = some pw)
    (hbind : dir.bindErr = none) (hao : o.authOnly = false)
    (hse : dir.searchErr = none)
    (hev : dir.events = [SearchEvent.endEv st]) (hst : st ≠ 0) :
    ∃ r, authenticate o ⟨some body⟩ dir v = .ok r ∧
      r.outcomes = [Outcome.failCode st] := by
  have hr := resolveSearch_unix o (bindName o user) hmode
  have hps := postBind_search o (bindName o user) dir v _ _ hbind hao hr
  rw [hse] at hps
  rw [authenticate_creds o body user pw dir v hu hp]
  simp only [hps]
  refine ⟨_, rfl, ?_⟩
  simp [hev, processEvents, processEvent, hst]

/-- Witness for `c4_nonzero_end_fails_with_status` at a concrete attempt
whose search ends with status 5. -/
theorem c4_nonzero_end_fails_with_status_witness :
    (5 : Nat) ≠ 0 ∧
    (∃ r, authenticate unixOpts ⟨some [("user", "alice"), ("pwd", "secret")]⟩
          (okDir [.endEv 5]) acceptVerify = .ok r ∧
        r.outcomes = [Outcome.failCode 5]) :=
  ⟨by decide,
    c4_nonzero_end_fails_with_status unixOpts [("user", "alice"), ("pwd", "secret")]
      "alice" "secret" (okDir [.endEv 5]) acceptVerify 5 rfl rfl rfl rfl rfl rfl rfl
      (by decide)⟩

/-- C5 counterexample: a Windows-mode attempt whose username has no
backslash is not treated as malformed: with `authOnly` true and a
successful bind the reported outcome is success, not fail. -/
theorem c5_success_without_separator :
    authenticate { winOpts with authOnly := true }
        ⟨some [("user", "bob"), ("pwd", "s")]⟩ (okDir []) acceptVerify =
      .ok ⟨[ClientAction.createClient "srv", ClientAction.bind "bob" "s"],
           [Outcome.success (.uidObj "bob")], { winOpts with authOnly := true }⟩ :=
  rfl

/-- C5 (amended): a Windows-mode attempt whose username has no backslash
never crashes; with a component-sequence base it proceeds to an ordinary
search whose filter has the `$uid$` placeholder replaced by the literal
string "undefined" (the coerced undefined local name), so the outcome
follows the normal flow rather than a malformed-request failure. -/
theorem c5_no_separator_no_crash (o : LdapOptions)
    (body : List (String × String)) (user pw : String) (cs : List String)
    (dir : DirBehavior) (v : VerifyFn)
    (hmode : o.authMode ≠ 1) (hbase : o.base = .comps cs)
    (hsep : '\\' ∉ user.data)
    (hu : truthyField body o.usernameField = some user)
    (hp : truthyField body o.passwordField = some pw)
    (hbind : dir.bindErr = none) (hao : o.authOnly = false) :
    ∃ r, authenticate o ⟨some body⟩ dir v = .ok r ∧
      ClientAction.search
          (String.intercalate "," (winDnComps cs ("dc=" ++ toLowerStr user)))
          (replaceFirst o.search.filter "$uid$" "undefined") ∈ r.actions := by
  have hbn : bindName o user = user := by simp [bindName, hmode]
  have hr := resolveSearch_nosep o user cs hmode hbase hsep
  have hps := postBind_search o user dir v _ _ hbind hao hr
  rw [authenticate_creds o body user pw dir v hu hp, hbn]
  simp only [hps]
  cases hs : dir.searchErr with
  | some e => exact ⟨_, rfl, by simp [jsStr]⟩
  | none => exact ⟨_, rfl, by simp [jsStr]⟩

/-- Witness for `c5_no_separator_no_crash` at a concrete Windows-mode
attempt with the separator-free username "bob". -/
theorem c5_no_separator_no_crash_witness :
    winOpts.authMode ≠ 1 ∧ '\\' ∉ "bob".data ∧
    (∃ r, authenticate winOpts ⟨some [("user", "bob"), ("pwd", "s")]⟩
          (okDir []) acceptVerify = .ok r ∧
        ClientAction.search
            (String.intercalate ","
              (winDnComps ["dc=ad", "dc=sm"] ("dc=" ++ toLowerStr "bob")))
            (replaceFirst winOpts.search.filter "$uid$" "undefined") ∈ r.actions) :=
  ⟨by decide, by decide,
    c5_no_separator_no_crash winOpts [("user", "bob"), ("pwd", "s")] "bob" "s"
      ["dc=ad", "dc=sm"] (okDir []) acceptVerify (by decide) rfl (by decide)
      rfl rfl rfl rfl⟩

/-- C7 counterexample: with a configured base that already lists the
`dc=ad` component twice, the computed search base for `AD\bob` keeps both
copies: it does not contain the component exactly once. -/
theorem c7_duplicate_dc_kept :
    resolveSearch { winOpts with base := .comps ["dc=ad", "dc=ad"] } "AD\\bob" =
      .ok ("dc=ad,dc=ad", some "bob") ∧
    countOcc "dc=ad" ["dc=ad", "dc=ad"] = 2 :=
  ⟨rfl, rfl⟩

/-- C7 (amended): for `DOMAIN\name` usernames with a component-sequence
base, the computed search base component list is the configured one with
`dc=<domain-lowercased>` prepended exactly when absent; hence it contains
that component exactly once when the configured base contained it at most
once, and otherwise exactly as often as the configured base did. A
single-string base is used unchanged. -/
theorem c7_dc_component_occurrences :
    (∀ (o : LdapOptions) (cs : List String) (d n : String),
        o.authMode ≠ 1 → o.base = .comps cs → '\\' ∉ d.data → '\\' ∉ n.data →
        resolveSearch o (d ++ "\\" ++ n) =
          .ok (String.intercalate "," (winDnComps cs ("dc=" ++ toLowerStr d)),
            some n) ∧
        countOcc ("dc=" ++ toLowerStr d) (winDnComps cs ("dc=" ++ toLowerStr d)) =
          (if countOcc ("dc=" ++ toLowerStr d) cs = 0 then 1
            else countOcc ("dc=" ++ toLowerStr d) cs)) ∧
    (∀ (o : LdapOptions) (s u : String),
        o.authMode ≠ 1 → o.base = .str s → resolveSearch o u = .ok (s, none)) :=
  ⟨fun o cs d n hm hb hd hn =>
      ⟨resolveSearch_win o d n cs hm hb hd hn, countOcc_winDnComps cs _⟩,
    fun o s u hm hb => resolveSearch_str o u s hm hb⟩

/-- Witness for `c7_dc_component_occurrences`: both parts at concrete
inputs (`AD\bob` against a base without `dc=ad`, and a string base). -/
theorem c7_dc_component_occurrences_witness :
    (resolveSearch { winOpts with base := .comps ["dc=sm", "dc=else"] } "AD\\bob" =
        .ok (String.intercalate ","
            (winDnComps ["dc=sm", "dc=else"] ("dc=" ++ toLowerStr "AD")),
          some "bob") ∧
      countOcc ("dc=" ++ toLowerStr "AD")
          (winDnComps ["dc=sm", "dc=else"] ("dc=" ++ toLowerStr "AD")) =
        (if countOcc ("dc=" ++ toLowerStr "AD") ["dc=sm", "dc=else"] = 0 then 1
          else countOcc ("dc=" ++ toLowerStr "AD") ["dc=sm", "dc=else"])) ∧
    resolveSearch { winOpts with base := .str "o=example" } "whoever" =
      .ok ("o=example", none) :=
  ⟨c7_dc_component_occurrences.1 { winOpts with base := .comps ["dc=sm", "dc=else"] }
      ["dc=sm", "dc=else"] "AD" "bob" (by decide) rfl (by decide) (by decide),
    c7_dc_component_occurrences.2 { winOpts with base := .str "o=example" }
      "o=example" "whoever" (by decide) rfl⟩

/-- C3: evaluation at the failing input of the filter-substitution bug.
In Unix mode the JS variable `name` is only ever assigned inside the
Windows-mode component-base branch, so the filter substituted into the
search is the literal string "undefined", not the request username
"alice": the search issued is `(uid=undefined)` instead of `(uid=alice)`. -/
theorem c3_unix_filter_literal_undefined :
    authenticate unixOpts ⟨some [("user", "alice"), ("pwd", "secret")]⟩
        (okDir []) acceptVerify =
      .ok ⟨[ClientAction.createClient "srv",
            ClientAction.bind "uid=alice,dc=example,dc=local" "secret",
            ClientAction.search "uid=alice,dc=example,dc=local" "(uid=undefined)"],
           [], unixOpts⟩ ∧
    replaceFirst "(uid=$uid$)" "$uid$" "alice" = "(uid=alice)" :=
  ⟨rfl, rfl⟩
